import Mathlib

/-!
Shallow embedding of the `tracing-web` crate: the span-to-performance-timeline
layer (`src/performance_layer.rs`) and the console writer (`src/console_writer.rs`).

Host capabilities are modelled explicitly: the host `Performance` object is an
oracle deciding success or failure of each attempted `mark`/`measure` call, and
the host console is modelled by recording the method and arguments of each call.
-/

namespace TracingWeb

/-! ## Fields and the wrapped field formatter -/

/-- A recorded key/value field, with the value already rendered to a string
(the layer itself never inspects fields; only the formatter capability does). -/
structure Field where
  name : String
  value : String
deriving DecidableEq

/-- The external `FormatFields` capability wrapped by `FormatSpanFromFields`:
`formatFields` renders a field set into a fresh buffer and is fallible
(`none` models a formatting error, `Err` in the source). -/
structure FieldFormatter where
  formatFields : List Field → Option String

/-- Modelled from the spec: the wrapped formatter's own field-accumulation
behavior (`FormatFields::add_fields` of the external `tracing-subscriber`
dependency, which is not part of this repository). Per the spec, the merge
appends the newly formatted fields to the existing stored string (separated
by a space when the existing string is non-empty), and a formatting failure
leaves the existing detail string unchanged. -/
def FieldFormatter.addFields (f : FieldFormatter) (cur : String) (values : List Field) : String :=
  match f.formatFields values with
  | none => cur
  | some s => if cur = "" then s else cur ++ " " ++ s

/-! ## FormatSpan: the polymorphic detail-formatter strategy

The trait `FormatSpan` has two implementations in the source: the unit (NoOp)
implementation `impl FormatSpan for ()` and `FormatSpanFromFields<N>`.
The span's extension slot (`Extensions` holding at most one
`FormattedFields` entry) is modelled as an `Option String`. -/

inductive FormatSpan where
  | noop : FormatSpan
  | fromFields (inner : FieldFormatter) : FormatSpan

/-- `find_details`: the NoOp implementation always returns `None`; the
from-fields implementation returns the stored `FormattedFields` string, if any. -/
def FormatSpan.find_details : FormatSpan → Option String → Option String
  | .noop, _ => none
  | .fromFields _, ext => ext

/-- `FormatSpanFromFields::add_formatted_fields`: if no `FormattedFields`
entry exists yet, format the fields into a fresh empty buffer and insert the
result only when formatting succeeded; if an entry already exists, do nothing. -/
def add_formatted_fields (f : FieldFormatter) (ext : Option String) (fields : List Field) :
    Option String :=
  match ext with
  | some s => some s
  | none =>
    match f.formatFields fields with
    | some s => some s
    | none => none

/-- `add_details`: NoOp stores nothing; from-fields delegates to
`add_formatted_fields` with the creation attributes. -/
def FormatSpan.add_details : FormatSpan → Option String → List Field → Option String
  | .noop, ext, _ => ext
  | .fromFields f, ext, attrs => add_formatted_fields f ext attrs

/-- `record_values`: NoOp stores nothing; from-fields merges into an existing
stored string via the wrapped formatter's `add_fields`, or lazily materializes
the string via `add_formatted_fields` when none exists yet. -/
def FormatSpan.record_values : FormatSpan → Option String → List Field → Option String
  | .noop, ext, _ => ext
  | .fromFields f, ext, values =>
    match ext with
    | some cur => some (f.addFields cur values)
    | none => add_formatted_fields f none values

/-! ## The host Performance capability -/

/-- An attempted host call: `performance.mark` (plain or with a details
object) or `performance.measure` (with start/end mark names, plain or with a
details object). -/
inductive PerfCall where
  | mark (name : String)
  | markDetailed (name : String) (details : String)
  | measure (name : String) (start : String) (stop : String)
  | measureDetailed (name : String) (start : String) (stop : String) (details : String)
deriving DecidableEq

/-- The name carried by an attempted host call. -/
def PerfCall.name : PerfCall → String
  | .mark n => n
  | .markDetailed n _ => n
  | .measure n _ _ => n
  | .measureDetailed n _ _ _ => n

/-- Per-span layer state: the span's extension slot (`Option String` detail)
together with the host-visible log of attempted Performance calls, in order. -/
structure PerfState where
  ext : Option String
  calls : List PerfCall
deriving DecidableEq

/-- Attempt one host call: the call is appended to the log, and the host
oracle decides, by position in the log, whether this call succeeds. -/
def attempt (oracle : Nat → Bool) (st : PerfState) (c : PerfCall) : PerfState × Bool :=
  ({ st with calls := st.calls ++ [c] }, oracle st.calls.length)

/-! ## The performance layer's lifecycle callbacks -/

/-- `template_name`: builds the event name from the span name, the numeric
span id and the event kind, exactly as the source's format string does. -/
def template_name (name : String) (spanId : Nat) (eventName : String) : String :=
  name ++ " [" ++ toString spanId ++ "]: " ++ eventName

/-- `on_new_span`: store the result of `add_details` in the span's extension
slot; no mark is emitted. -/
def on_new_span (fs : FormatSpan) (_name : String) (_spanId : Nat) (attrs : List Field)
    (st : PerfState) : PerfState :=
  { st with ext := fs.add_details st.ext attrs }

/-- `on_record`: first merge the new values via `record_values`, then emit one
span-record mark, detailed iff `find_details` (re-read after the merge)
returns a string; the host call's result is discarded. -/
def on_record (fs : FormatSpan) (oracle : Nat → Bool) (name : String) (spanId : Nat)
    (values : List Field) (st : PerfState) : PerfState :=
  let st1 : PerfState := { st with ext := fs.record_values st.ext values }
  let markName := template_name name spanId "span-record"
  (match fs.find_details st1.ext with
   | some details => attempt oracle st1 (.markDetailed markName details)
   | none => attempt oracle st1 (.mark markName)).1

/-- `on_enter`: emit one span-enter mark, detailed iff `find_details` returns
a string at call time; the host call's result is discarded. -/
def on_enter (fs : FormatSpan) (oracle : Nat → Bool) (name : String) (spanId : Nat)
    (st : PerfState) : PerfState :=
  let markName := template_name name spanId "span-enter"
  (match fs.find_details st.ext with
   | some details => attempt oracle st (.markDetailed markName details)
   | none => attempt oracle st (.mark markName)).1

/-- The fallible closure inside `on_exit`: attempt the span-exit mark and,
only if it succeeded (the `?` operator), attempt the span-measure measure from
the span-enter mark to the span-exit mark, with the same detail policy.
Returns the resulting state and whether the whole closure returned `Ok`. -/
def on_exit_calls (fs : FormatSpan) (oracle : Nat → Bool) (name : String) (spanId : Nat)
    (st : PerfState) : PerfState × Bool :=
  let markEnterName := template_name name spanId "span-enter"
  let markExitName := template_name name spanId "span-exit"
  let markMeasureName := template_name name spanId "span-measure"
  match fs.find_details st.ext with
  | some details =>
    let r1 := attempt oracle st (.markDetailed markExitName details)
    if r1.2 then
      attempt oracle r1.1 (.measureDetailed markMeasureName markEnterName markExitName details)
    else (r1.1, false)
  | none =>
    let r1 := attempt oracle st (.mark markExitName)
    if r1.2 then
      attempt oracle r1.1 (.measure markMeasureName markEnterName markExitName)
    else (r1.1, false)

/-- `on_exit`: run the fallible closure and discard its result
(`let _ = ...; // Ignore errors`). -/
def on_exit (fs : FormatSpan) (oracle : Nat → Bool) (name : String) (spanId : Nat)
    (st : PerfState) : PerfState :=
  (on_exit_calls fs oracle name spanId st).1

/-! ## Event sequences on one span -/

/-- A lifecycle event delivered for one span. -/
inductive SpanEvent where
  | newSpan (attrs : List Field)
  | record (values : List Field)
  | enter
  | exit
deriving DecidableEq

/-- Dispatch one lifecycle event to the corresponding callback. -/
def step (fs : FormatSpan) (oracle : Nat → Bool) (name : String) (spanId : Nat)
    (st : PerfState) : SpanEvent → PerfState
  | .newSpan attrs => on_new_span fs name spanId attrs st
  | .record values => on_record fs oracle name spanId values st
  | .enter => on_enter fs oracle name spanId st
  | .exit => on_exit fs oracle name spanId st

/-- Run a sequence of lifecycle events for one span. -/
def runEvents (fs : FormatSpan) (oracle : Nat → Bool) (name : String) (spanId : Nat)
    (events : List SpanEvent) (st : PerfState) : PerfState :=
  events.foldl (step fs oracle name spanId) st

/-! ## Layer-level wrappers: span lookup and the id-change callback

The trait-level callbacks first resolve the span id through the context;
`.expect("cannot find span, this is a bug")` panics when resolution fails.
`on_id_change` emits a console warning and then `debug_assert!(false)`, which
panics when debug assertions are compiled in. -/

/-- A reachable panic source in the layer. -/
inductive PanicCause where
  | spanNotFound
  | debugAssertFailed
deriving DecidableEq

/-- Outcome of one trait-level callback: the resulting per-span state, the
console warnings emitted, and the panic cause if the callback did not return
normally. -/
structure CallbackResult where
  st : PerfState
  warnings : List String
  panicMsg : Option PanicCause
deriving DecidableEq

/-- Trait-level `on_new_span`: resolve the span, then delegate. -/
def layer_on_new_span (fs : FormatSpan) (ctx : Option (String × Nat)) (attrs : List Field)
    (st : PerfState) : CallbackResult :=
  match ctx with
  | none => { st := st, warnings := [], panicMsg := some .spanNotFound }
  | some (name, spanId) =>
    { st := on_new_span fs name spanId attrs st, warnings := [], panicMsg := none }

/-- Trait-level `on_record`: resolve the span, then delegate. -/
def layer_on_record (fs : FormatSpan) (oracle : Nat → Bool) (ctx : Option (String × Nat))
    (values : List Field) (st : PerfState) : CallbackResult :=
  match ctx with
  | none => { st := st, warnings := [], panicMsg := some .spanNotFound }
  | some (name, spanId) =>
    { st := on_record fs oracle name spanId values st, warnings := [], panicMsg := none }

/-- Trait-level `on_enter`: resolve the span, then delegate. -/
def layer_on_enter (fs : FormatSpan) (oracle : Nat → Bool) (ctx : Option (String × Nat))
    (st : PerfState) : CallbackResult :=
  match ctx with
  | none => { st := st, warnings := [], panicMsg := some .spanNotFound }
  | some (name, spanId) =>
    { st := on_enter fs oracle name spanId st, warnings := [], panicMsg := none }

/-- Trait-level `on_exit`: resolve the span, then delegate. -/
def layer_on_exit (fs : FormatSpan) (oracle : Nat → Bool) (ctx : Option (String × Nat))
    (st : PerfState) : CallbackResult :=
  match ctx with
  | none => { st := st, warnings := [], panicMsg := some .spanNotFound }
  | some (name, spanId) =>
    { st := on_exit fs oracle name spanId st, warnings := [], panicMsg := none }

/-- Trait-level `on_id_change`: emit one console warning; `debug_assert!`
then panics exactly when debug assertions are compiled in. The per-span state
is untouched: no mark or measure results from this callback. -/
def layer_on_id_change (debugAssertions : Bool) (st : PerfState) : CallbackResult :=
  { st := st
    warnings := ["A span changed id, this is currently not supported"]
    panicMsg := if debugAssertions then some .debugAssertFailed else none }

/-! ## The console writer (`src/console_writer.rs`)

`tracing_core::Level` admits exactly the five canonical severities. A console
call is recorded as the method used plus the `JsValue` arguments passed, in
order. -/

/-- `tracing_core::Level`: the five canonical severities. -/
inductive Level where
  | trace
  | debug
  | info
  | warn
  | error
deriving DecidableEq

/-- The `Display` rendering of a level (`format!` in the fallback label). -/
def Level.display : Level → String
  | .trace => "TRACE"
  | .debug => "DEBUG"
  | .info => "INFO"
  | .warn => "WARN"
  | .error => "ERROR"

/-- A host console method: the five severity-specific methods plus the
generic fallback `console.log`. -/
inductive ConsoleMethod where
  | debug
  | info
  | warn
  | error
  | log
deriving DecidableEq

/-- One call to the host console: the method and its arguments, in order. -/
structure ConsoleCall where
  method : ConsoleMethod
  args : List String
deriving DecidableEq

/-- One `LogImpl`: the simple (single-argument) emitter and the pretty
(styled format string) emitter. -/
structure LogImpl where
  log_simple : Level → String → ConsoleCall
  log_pretty : Level → String → ConsoleCall

/-- The message style segment used by every pretty canonical-level emitter. -/
def msg_style : String := "background: inherit; color: inherit;"

/-- Build the canonical-level `LogImpl` exactly as the `make_log_impl!` macro
does: the simple emitter passes the message alone; the pretty emitter passes
the format string, the label style, the message style and the message. -/
def mkLogImpl (m : ConsoleMethod) (fmt : String) (label_style : String) : LogImpl :=
  { log_simple := fun _ msg => { method := m, args := [msg] }
    log_pretty := fun _ msg => { method := m, args := [fmt, label_style, msg_style, msg] } }

/-- `LogLevelTrace` (trace logs via `console.debug`; see the source comment on
`console.trace`). -/
def LogLevelTrace : LogImpl :=
  mkLogImpl .debug "%cTRACE%c %s"
    "color: white; font-weight: bold; padding: 0 3px; background: #75507B;"

/-- `LogLevelDebug`. -/
def LogLevelDebug : LogImpl :=
  mkLogImpl .debug "%cDEBUG%c %s"
    "color: white; font-weight: bold; padding: 0 3px; background: #3465A4;"

/-- `LogLevelInfo`. -/
def LogLevelInfo : LogImpl :=
  mkLogImpl .info "%cINFO%c %s"
    "color: white; font-weight: bold; padding: 0 3px; background: #4E9A06;"

/-- `LogLevelWarn`. -/
def LogLevelWarn : LogImpl :=
  mkLogImpl .warn "%cWARN%c %s"
    "color: white; font-weight: bold; padding: 0 3px; background: #C4A000;"

/-- `LogLevelError`. -/
def LogLevelError : LogImpl :=
  mkLogImpl .error "%cERROR%c %s"
    "color: white; font-weight: bold; padding: 0 3px; background: #CC0000;"

/-- `LogLevelFallback`: the generic path. Simple style uses `console.log`
with the message alone; pretty style uses `console.log` with an empty
(uncolored) label style and the literal `Display` rendering of the level as
the label. -/
def LogLevelFallback : LogImpl :=
  { log_simple := fun _ msg => { method := .log, args := [msg] }
    log_pretty := fun level msg =>
      { method := .log, args := ["%c%s%c %s", "", level.display, "", msg] } }

/-- The two rendering styles (`SimpleStyle` / `PrettyStyle`). -/
inductive LogStyle where
  | simple
  | pretty
deriving DecidableEq

/-- `LogImplStyle::get_dispatch`: pick the emitter of a `LogImpl` for a style. -/
def LogStyle.get_dispatch : LogStyle → LogImpl → Level → String → ConsoleCall
  | .simple, l => l.log_simple
  | .pretty, l => l.log_pretty

/-- `select_dispatcher`: the if-else chain over the five level constants,
falling back to `LogLevelFallback`. -/
def select_dispatcher (style : LogStyle) (level : Level) : Level → String → ConsoleCall :=
  if level = .trace then style.get_dispatch LogLevelTrace
  else if level = .debug then style.get_dispatch LogLevelDebug
  else if level = .info then style.get_dispatch LogLevelInfo
  else if level = .warn then style.get_dispatch LogLevelWarn
  else if level = .error then style.get_dispatch LogLevelError
  else style.get_dispatch LogLevelFallback

/-! ### UTF-8 lossy decoding

Modelled from the spec: the drop handler "decodes the accumulated bytes as
UTF-8 with lossy substitution for invalid sequences"
(`String::from_utf8_lossy` of the standard library, which is not part of this
repository). -/

/-- The Unicode replacement character U+FFFD. -/
def replacementChar : Char := Char.ofNat 0xFFFD

/-- Whether a byte is a UTF-8 continuation byte (`0x80 ..= 0xBF`). -/
def isCont (b : Nat) : Bool := 0x80 ≤ b && b < 0xC0

/-- Valid first-continuation range for a three-byte lead. -/
def cont1ok3 (b c1 : Nat) : Bool :=
  if b = 0xE0 then 0xA0 ≤ c1 && c1 ≤ 0xBF
  else if b = 0xED then 0x80 ≤ c1 && c1 ≤ 0x9F
  else isCont c1

/-- Valid first-continuation range for a four-byte lead. -/
def cont1ok4 (b c1 : Nat) : Bool :=
  if b = 0xF0 then 0x90 ≤ c1 && c1 ≤ 0xBF
  else if b = 0xF4 then 0x80 ≤ c1 && c1 ≤ 0x8F
  else isCont c1

/-- Decode one scalar value starting at lead byte `b`; on an invalid
sequence produce the replacement character and resume after the maximal
valid subpart. Returns the decoded character and the remaining bytes. -/
def utf8Step (b : Nat) (rest : List Nat) : Char × List Nat :=
  if b < 0x80 then (Char.ofNat b, rest)
  else if b < 0xC2 then (replacementChar, rest)
  else if b < 0xE0 then
    match rest with
    | c1 :: r1 =>
      if isCont c1 then (Char.ofNat ((b % 0x20) * 0x40 + c1 % 0x40), r1)
      else (replacementChar, rest)
    | [] => (replacementChar, [])
  else if b < 0xF0 then
    match rest with
    | c1 :: r1 =>
      if cont1ok3 b c1 then
        match r1 with
        | c2 :: r2 =>
          if isCont c2 then
            (Char.ofNat ((b % 0x10) * 0x1000 + (c1 % 0x40) * 0x40 + c2 % 0x40), r2)
          else (replacementChar, r1)
        | [] => (replacementChar, [])
      else (replacementChar, rest)
    | [] => (replacementChar, [])
  else if b < 0xF5 then
    match rest with
    | c1 :: r1 =>
      if cont1ok4 b c1 then
        match r1 with
        | c2 :: r2 =>
          if isCont c2 then
            match r2 with
            | c3 :: r3 =>
              if isCont c3 then
                (Char.ofNat
                  ((b % 0x8) * 0x40000 + (c1 % 0x40) * 0x1000 + (c2 % 0x40) * 0x40 + c3 % 0x40),
                  r3)
              else (replacementChar, r2)
            | [] => (replacementChar, [])
          else (replacementChar, r1)
        | [] => (replacementChar, [])
      else (replacementChar, rest)
    | [] => (replacementChar, [])
  else (replacementChar, rest)

/-- Fuel-driven decoding loop; the fuel is the byte count, and every step
consumes at least the lead byte, so the initial fuel always suffices. -/
def utf8DecodeLossyAux : Nat → List Nat → List Char
  | 0, _ => []
  | _, [] => []
  | fuel + 1, b :: rest =>
    let s := utf8Step b rest
    s.1 :: utf8DecodeLossyAux fuel s.2

/-- `String::from_utf8_lossy` on a byte list. -/
def from_utf8_lossy (l : List Nat) : String :=
  String.mk (utf8DecodeLossyAux l.length l)

/-! ### The writer itself -/

/-- `ConsoleWriter`: the byte buffer, the level fixed at construction, and
the dispatcher selected at construction. -/
structure ConsoleWriter where
  buffer : List Nat
  level : Level
  log : Level → String → ConsoleCall

/-- `std::io::Write::write`: append to the buffer, report all bytes consumed. -/
def ConsoleWriter.write (w : ConsoleWriter) (buf : List Nat) : ConsoleWriter × Nat :=
  ({ w with buffer := w.buffer ++ buf }, buf.length)

/-- `std::io::Write::flush`: nothing to do, flushing happens on drop; no
console call is emitted. -/
def ConsoleWriter.flush (w : ConsoleWriter) : ConsoleWriter × List ConsoleCall :=
  (w, [])

/-- `Drop::drop`: decode the accumulated bytes (UTF-8, lossy) and dispatch
exactly one console call through the stored dispatcher at the stored level. -/
def ConsoleWriter.drop (w : ConsoleWriter) : List ConsoleCall :=
  [w.log w.level (from_utf8_lossy w.buffer)]

/-- Apply a sequence of partial writes. -/
def writeAll (w : ConsoleWriter) (chunks : List (List Nat)) : ConsoleWriter :=
  chunks.foldl (fun w b => (w.write b).1) w

/-- `MakeWebConsoleWriter`. -/
structure MakeWebConsoleWriter where
  use_pretty_label : Bool

/-- `MakeWriter::make_writer` for `MakeWebConsoleWriter`: no record metadata
is available, so the level defaults to TRACE and the dispatcher is the
fallback one (in the configured style). -/
def MakeWebConsoleWriter.make_writer (m : MakeWebConsoleWriter) : ConsoleWriter :=
  { buffer := []
    level := .trace
    log :=
      if m.use_pretty_label then LogStyle.pretty.get_dispatch LogLevelFallback
      else LogStyle.simple.get_dispatch LogLevelFallback }

/-- `MakeWriter::make_writer_for`: the record's level selects the dispatcher
through `select_dispatcher` in the configured style. -/
def MakeWebConsoleWriter.make_writer_for (m : MakeWebConsoleWriter) (metaLevel : Level) :
    ConsoleWriter :=
  { buffer := []
    level := metaLevel
    log :=
      if m.use_pretty_label then select_dispatcher .pretty metaLevel
      else select_dispatcher .simple metaLevel }

/-- The discouraged `MakeConsoleWriter` unit struct. -/
structure MakeConsoleWriter where

/-- `MakeConsoleWriter::upgrade`: the non-pretty `MakeWebConsoleWriter`. -/
def MakeConsoleWriter.upgrade (_ : MakeConsoleWriter) : MakeWebConsoleWriter :=
  { use_pretty_label := false }

/-- `MakeWriter::make_writer` for `MakeConsoleWriter` delegates via `upgrade`. -/
def MakeConsoleWriter.make_writer (m : MakeConsoleWriter) : ConsoleWriter :=
  m.upgrade.make_writer

/-- `MakeWriter::make_writer_for` for `MakeConsoleWriter` delegates via
`upgrade`. -/
def MakeConsoleWriter.make_writer_for (m : MakeConsoleWriter) (metaLevel : Level) :
    ConsoleWriter :=
  m.upgrade.make_writer_for metaLevel

/-! ## Helper characterizations of the callbacks -/

/-- The mark call emitted for a given name and detail lookup result. -/
def markFor (n : String) : Option String → PerfCall
  | some d => .markDetailed n d
  | none => .mark n

/-- The measure call emitted for given names and detail lookup result. -/
def measureFor (n s e : String) : Option String → PerfCall
  | some d => .measureDetailed n s e d
  | none => .measure n s e

theorem markFor_name (n : String) (d : Option String) : (markFor n d).name = n := by
  cases d <;> rfl

theorem measureFor_name (n s e : String) (d : Option String) :
    (measureFor n s e d).name = n := by
  cases d <;> rfl

theorem on_new_span_calls (fs : FormatSpan) (name : String) (spanId : Nat)
    (attrs : List Field) (st : PerfState) :
    (on_new_span fs name spanId attrs st).calls = st.calls := rfl

theorem on_new_span_ext (fs : FormatSpan) (name : String) (spanId : Nat)
    (attrs : List Field) (st : PerfState) :
    (on_new_span fs name spanId attrs st).ext = fs.add_details st.ext attrs := rfl

theorem on_record_calls (fs : FormatSpan) (oracle : Nat → Bool) (name : String) (spanId : Nat)
    (values : List Field) (st : PerfState) :
    (on_record fs oracle name spanId values st).calls =
      st.calls ++ [markFor (template_name name spanId "span-record")
        (fs.find_details (fs.record_values st.ext values))] := by
  cases h : fs.find_details (fs.record_values st.ext values) <;>
    simp [on_record, attempt, markFor, h]

theorem on_record_ext (fs : FormatSpan) (oracle : Nat → Bool) (name : String) (spanId : Nat)
    (values : List Field) (st : PerfState) :
    (on_record fs oracle name spanId values st).ext = fs.record_values st.ext values := by
  cases h : fs.find_details (fs.record_values st.ext values) <;>
    simp [on_record, attempt, h]

theorem on_enter_calls (fs : FormatSpan) (oracle : Nat → Bool) (name : String) (spanId : Nat)
    (st : PerfState) :
    (on_enter fs oracle name spanId st).calls =
      st.calls ++ [markFor (template_name name spanId "span-enter")
        (fs.find_details st.ext)] := by
  cases h : fs.find_details st.ext <;> simp [on_enter, attempt, markFor, h]

theorem on_enter_ext (fs : FormatSpan) (oracle : Nat → Bool) (name : String) (spanId : Nat)
    (st : PerfState) :
    (on_enter fs oracle name spanId st).ext = st.ext := by
  cases h : fs.find_details st.ext <;> simp [on_enter, attempt, h]

theorem on_exit_spec (fs : FormatSpan) (oracle : Nat → Bool) (name : String) (spanId : Nat)
    (st : PerfState) :
    (on_exit fs oracle name spanId st).calls =
      st.calls ++ [markFor (template_name name spanId "span-exit") (fs.find_details st.ext)]
        ++ (if oracle st.calls.length then
              [measureFor (template_name name spanId "span-measure")
                (template_name name spanId "span-enter")
                (template_name name spanId "span-exit")
                (fs.find_details st.ext)]
            else []) := by
  cases h : fs.find_details st.ext <;> cases ho : oracle st.calls.length <;>
    simp [on_exit, on_exit_calls, attempt, markFor, measureFor, h, ho]

theorem on_exit_ext (fs : FormatSpan) (oracle : Nat → Bool) (name : String) (spanId : Nat)
    (st : PerfState) :
    (on_exit fs oracle name spanId st).ext = st.ext := by
  cases h : fs.find_details st.ext <;> cases ho : oracle st.calls.length <;>
    simp [on_exit, on_exit_calls, attempt, h, ho]

/-- Extension evolution of one event, independent of the host oracle. -/
def extStep (fs : FormatSpan) (ext : Option String) : SpanEvent → Option String
  | .newSpan attrs => fs.add_details ext attrs
  | .record values => fs.record_values ext values
  | .enter => ext
  | .exit => ext

theorem step_ext (fs : FormatSpan) (oracle : Nat → Bool) (name : String) (spanId : Nat)
    (st : PerfState) (ev : SpanEvent) :
    (step fs oracle name spanId st ev).ext = extStep fs st.ext ev := by
  cases ev with
  | newSpan attrs => rfl
  | record values => exact on_record_ext ..
  | enter => exact on_enter_ext ..
  | exit => exact on_exit_ext ..

theorem runEvents_nil (fs : FormatSpan) (oracle : Nat → Bool) (name : String) (spanId : Nat)
    (st : PerfState) : runEvents fs oracle name spanId [] st = st := rfl

theorem runEvents_cons (fs : FormatSpan) (oracle : Nat → Bool) (name : String) (spanId : Nat)
    (ev : SpanEvent) (es : List SpanEvent) (st : PerfState) :
    runEvents fs oracle name spanId (ev :: es) st =
      runEvents fs oracle name spanId es (step fs oracle name spanId st ev) := rfl

theorem runEvents_append (fs : FormatSpan) (oracle : Nat → Bool) (name : String) (spanId : Nat)
    (es es' : List SpanEvent) (st : PerfState) :
    runEvents fs oracle name spanId (es ++ es') st =
      runEvents fs oracle name spanId es' (runEvents fs oracle name spanId es st) :=
  List.foldl_append ..

theorem runEvents_ext (fs : FormatSpan) (oracle : Nat → Bool) (name : String) (spanId : Nat)
    (es : List SpanEvent) (st : PerfState) :
    (runEvents fs oracle name spanId es st).ext = es.foldl (extStep fs) st.ext := by
  induction es generalizing st with
  | nil => rfl
  | cons ev es ih =>
    rw [runEvents_cons, List.foldl_cons, ih, step_ext]

theorem step_calls_mono (fs : FormatSpan) (oracle : Nat → Bool) (name : String) (spanId : Nat)
    (st : PerfState) (ev : SpanEvent) :
    ∃ t, (step fs oracle name spanId st ev).calls = st.calls ++ t := by
  cases ev with
  | newSpan attrs => exact ⟨[], by simp [step, on_new_span_calls]⟩
  | record values => exact ⟨_, on_record_calls ..⟩
  | enter => exact ⟨_, on_enter_calls ..⟩
  | exit => exact ⟨_, by rw [show (step fs oracle name spanId st .exit).calls = _ from on_exit_spec .., List.append_assoc]⟩

theorem runEvents_calls_mono (fs : FormatSpan) (oracle : Nat → Bool) (name : String)
    (spanId : Nat) (es : List SpanEvent) (st : PerfState) :
    ∃ t, (runEvents fs oracle name spanId es st).calls = st.calls ++ t := by
  induction es generalizing st with
  | nil => exact ⟨[], by simp [runEvents_nil]⟩
  | cons ev es ih =>
    obtain ⟨t1, h1⟩ := step_calls_mono fs oracle name spanId st ev
    obtain ⟨t2, h2⟩ := ih (step fs oracle name spanId st ev)
    exact ⟨t1 ++ t2, by rw [runEvents_cons, h2, h1, List.append_assoc]⟩

/-! ## Claim C1 -/

/-- Whether a string is one of the three mark names of this span. -/
def markNameOk (name : String) (spanId : Nat) (n : String) : Bool :=
  n == template_name name spanId "span-enter"
  || n == template_name name spanId "span-exit"
  || n == template_name name spanId "span-record"

/-- Whether an attempted host call is named by the span's naming scheme:
marks carry one of the three mark kinds, measures carry the span-measure
name and reference exactly the span-enter and span-exit mark names. -/
def callNameOk (name : String) (spanId : Nat) : PerfCall → Bool
  | .mark n => markNameOk name spanId n
  | .markDetailed n _ => markNameOk name spanId n
  | .measure n s e =>
      (n == template_name name spanId "span-measure")
      && (s == template_name name spanId "span-enter")
      && (e == template_name name spanId "span-exit")
  | .measureDetailed n s e _ =>
      (n == template_name name spanId "span-measure")
      && (s == template_name name spanId "span-enter")
      && (e == template_name name spanId "span-exit")

theorem step_callNameOk (fs : FormatSpan) (oracle : Nat → Bool) (name : String) (spanId : Nat)
    (st : PerfState) (ev : SpanEvent)
    (h : st.calls.all (callNameOk name spanId) = true) :
    (step fs oracle name spanId st ev).calls.all (callNameOk name spanId) = true := by
  cases ev with
  | newSpan attrs => simpa [step, on_new_span_calls] using h
  | record values =>
    rw [show (step fs oracle name spanId st (.record values)).calls = _ from
      on_record_calls ..]
    cases fs.find_details (fs.record_values st.ext values) <;>
      simp [List.all_append, h, markFor, callNameOk, markNameOk]
  | enter =>
    rw [show (step fs oracle name spanId st .enter).calls = _ from on_enter_calls ..]
    cases fs.find_details st.ext <;>
      simp [List.all_append, h, markFor, callNameOk, markNameOk]
  | exit =>
    rw [show (step fs oracle name spanId st .exit).calls = _ from on_exit_spec ..]
    cases fs.find_details st.ext <;> cases ho : oracle st.calls.length <;>
      simp [List.all_append, h, markFor, measureFor, callNameOk, markNameOk]

theorem runEvents_callNameOk (fs : FormatSpan) (oracle : Nat → Bool) (name : String)
    (spanId : Nat) (es : List SpanEvent) (st : PerfState)
    (h : st.calls.all (callNameOk name spanId) = true) :
    (runEvents fs oracle name spanId es st).calls.all (callNameOk name spanId) = true := by
  induction es generalizing st with
  | nil => exact h
  | cons ev es ih => exact ih _ (step_callNameOk fs oracle name spanId st ev h)

/-- C1: for every span with name N and numeric id I, and for every formatter,
host outcome and event sequence, every mark or measure name the layer emits
has the form N, a space, the bracketed decimal id, a colon and one of the four
event kinds, and every measure references exactly the span-enter start-mark
name and the span-exit end-mark name. -/
theorem C1_mark_measure_names (fs : FormatSpan) (oracle : Nat → Bool) (name : String)
    (spanId : Nat) (events : List SpanEvent) (ext0 : Option String) :
    ((runEvents fs oracle name spanId events { ext := ext0, calls := [] }).calls.all
      (callNameOk name spanId)) = true :=
  runEvents_callNameOk fs oracle name spanId events { ext := ext0, calls := [] } rfl

/-! ## Claim C2 -/

/-- C2: in every `on_exit` call, the span-exit mark is attempted first (it is
the earlier element of the appended call list) and the span-measure measure is
attempted if and only if the host reported success for that exit mark attempt
(the oracle at the exit mark's position in the call log); the callback returns
normally for every host outcome, so neither failure surfaces to the caller. -/
theorem C2_exit_mark_then_measure (fs : FormatSpan) (oracle : Nat → Bool) (name : String)
    (spanId : Nat) (st : PerfState) :
    (on_exit fs oracle name spanId st).calls =
      st.calls ++ [markFor (template_name name spanId "span-exit") (fs.find_details st.ext)]
        ++ (if oracle st.calls.length then
              [measureFor (template_name name spanId "span-measure")
                (template_name name spanId "span-enter")
                (template_name name spanId "span-exit")
                (fs.find_details st.ext)]
            else [])
      ∧ (layer_on_exit fs oracle (some (name, spanId)) st).panicMsg = none :=
  ⟨on_exit_spec fs oracle name spanId st, rfl⟩

/-! ## Claim C3 -/

/-- The merge of a newly formatted fragment into an existing detail string:
appended after a separating space unless the existing string is empty. -/
def joinDetail (cur s : String) : String := if cur = "" then s else cur ++ " " ++ s

/-- Spec-side description: the in-arrival-order merge of the creation fields
and all recorded field sets, each rendered by the wrapped formatter. -/
def mergedDetail (f : FieldFormatter) (attrs : List Field) (vs : List (List Field)) : String :=
  vs.foldl (fun cur v => joinDetail cur ((f.formatFields v).getD ""))
    ((f.formatFields attrs).getD "")

/-- The event list of a sequence of record callbacks. -/
def recordEvents (vs : List (List Field)) : List SpanEvent := vs.map SpanEvent.record

/-- Whether a host call carries this span's span-record mark name. -/
def isRecordMark (name : String) (spanId : Nat) (c : PerfCall) : Bool :=
  c.name == template_name name spanId "span-record"

theorem runRecords_count (fs : FormatSpan) (oracle : Nat → Bool) (name : String)
    (spanId : Nat) (vs : List (List Field)) (st : PerfState) :
    ((runEvents fs oracle name spanId (recordEvents vs) st).calls.countP
        (isRecordMark name spanId))
      = st.calls.countP (isRecordMark name spanId) + vs.length := by
  induction vs generalizing st with
  | nil => simp [recordEvents, runEvents_nil]
  | cons v vs ih =>
    have hcons : recordEvents (v :: vs) = SpanEvent.record v :: recordEvents vs := rfl
    rw [hcons, runEvents_cons, ih]
    have hstep : (step fs oracle name spanId st (.record v)).calls =
        st.calls ++ [markFor (template_name name spanId "span-record")
          (fs.find_details (fs.record_values st.ext v))] := on_record_calls ..
    rw [hstep]
    simp [List.countP_append, List.countP_cons, isRecordMark, markFor_name]
    omega

theorem records_extFold (f : FieldFormatter) (vs : List (List Field)) :
    ∀ cur, (∀ v ∈ vs, (f.formatFields v).isSome = true) →
      (recordEvents vs).foldl (extStep (.fromFields f)) (some cur)
        = some (vs.foldl (fun c v => joinDetail c ((f.formatFields v).getD "")) cur) := by
  induction vs with
  | nil => intro cur _; rfl
  | cons v vs ih =>
    intro cur h
    obtain ⟨s, hs⟩ := Option.isSome_iff_exists.mp (h v (by simp))
    have hcons : recordEvents (v :: vs) = SpanEvent.record v :: recordEvents vs := rfl
    have hone : extStep (.fromFields f) (some cur) (.record v) = some (joinDetail cur s) := by
      simp [extStep, FormatSpan.record_values, FieldFormatter.addFields, hs, joinDetail]
    rw [hcons, List.foldl_cons, hone, ih (joinDetail cur s) (fun v hv => h v (by simp [hv]))]
    simp [hs]

/-- C3: with the from-fields formatter, starting a span and then issuing k
record callbacks attempts exactly k marks named with the span-record kind;
the next enter callback attempts a detailed span-enter mark whose detail is
the in-arrival-order merge of the creation fields and all k recorded field
sets (provided the wrapped formatter succeeds on each of them); running
further events only appends to the host call log, never altering calls
already attempted; and each enter re-reads `find_details` at call time. -/
theorem C3_records_then_enter (f : FieldFormatter) (oracle : Nat → Bool) (name : String)
    (spanId : Nat) (attrs : List Field) (vs : List (List Field))
    (hattrs : (f.formatFields attrs).isSome = true)
    (hvs : ∀ v ∈ vs, (f.formatFields v).isSome = true) :
    ((runEvents (.fromFields f) oracle name spanId
        (SpanEvent.newSpan attrs :: recordEvents vs) { ext := none, calls := [] }).calls.countP
        (isRecordMark name spanId)) = vs.length
    ∧ (runEvents (.fromFields f) oracle name spanId
        ((SpanEvent.newSpan attrs :: recordEvents vs) ++ [SpanEvent.enter])
        { ext := none, calls := [] }).calls
      = (runEvents (.fromFields f) oracle name spanId
          (SpanEvent.newSpan attrs :: recordEvents vs) { ext := none, calls := [] }).calls
        ++ [PerfCall.markDetailed (template_name name spanId "span-enter")
            (mergedDetail f attrs vs)]
    ∧ (∀ (fs : FormatSpan) (es es' : List SpanEvent) (st0 : PerfState),
        ∃ t, (runEvents fs oracle name spanId (es ++ es') st0).calls
          = (runEvents fs oracle name spanId es st0).calls ++ t)
    ∧ (∀ st' : PerfState,
        (on_enter (.fromFields f) oracle name spanId st').calls
          = st'.calls ++ [markFor (template_name name spanId "span-enter")
              (FormatSpan.find_details (.fromFields f) st'.ext)]) := by
  obtain ⟨s0, hs0⟩ := Option.isSome_iff_exists.mp hattrs
  have hext : (runEvents (.fromFields f) oracle name spanId
      (SpanEvent.newSpan attrs :: recordEvents vs) { ext := none, calls := [] }).ext
      = some (mergedDetail f attrs vs) := by
    rw [runEvents_ext, List.foldl_cons]
    have h1 : extStep (.fromFields f) ({ ext := none, calls := [] } : PerfState).ext
        (.newSpan attrs) = some s0 := by
      simp [extStep, FormatSpan.add_details, add_formatted_fields, hs0]
    rw [h1, records_extFold f vs s0 hvs]
    simp [mergedDetail, hs0]
  refine ⟨?_, ?_, ?_, ?_⟩
  · rw [runEvents_cons, runRecords_count]
    simp [step, on_new_span]
  · rw [runEvents_append]
    have hrunOne : ∀ st1 : PerfState,
        runEvents (.fromFields f) oracle name spanId [SpanEvent.enter] st1 =
          on_enter (.fromFields f) oracle name spanId st1 := fun _ => rfl
    rw [hrunOne, on_enter_calls]
    simp [FormatSpan.find_details, hext, markFor]
  · intro fs es es' st0
    rw [runEvents_append]
    exact runEvents_calls_mono ..
  · intro st'
    exact on_enter_calls ..

/-- A concrete wrapped formatter rendering fields as space-separated
key=value pairs, used to exercise C3 on the spec's own scenario. -/
def kvFormatter : FieldFormatter :=
  { formatFields := fun fields =>
      some (String.intercalate " " (fields.map (fun fl => fl.name ++ "=" ++ fl.value))) }

/-- C3 witness: the spec scenario (span with field a=1, then one record of
b=2) attempts exactly one span-record mark. -/
theorem C3_records_then_enter_witness :
    ((runEvents (.fromFields kvFormatter) (fun _ => true) "req" 1
        (SpanEvent.newSpan [{ name := "a", value := "1" }]
          :: recordEvents [[{ name := "b", value := "2" }]])
        { ext := none, calls := [] }).calls.countP (isRecordMark "req" 1)) = 1 :=
  (C3_records_then_enter kvFormatter (fun _ => true) "req" 1
      [{ name := "a", value := "1" }] [[{ name := "b", value := "2" }]]
      (by decide) (by decide)).1

/-! ## Claim C4 -/

/-- C4: once a span's stored detail string is non-empty, `record_values` with
the from-fields formatter extends it in place: the result is the old string
with a (possibly empty) suffix appended, never a replacement or a removal. -/
theorem C4_record_values_extends (f : FieldFormatter) (cur : String) (values : List Field)
    (h : cur ≠ "") :
    ∃ t, FormatSpan.record_values (.fromFields f) (some cur) values = some (cur ++ t) := by
  cases hf : f.formatFields values with
  | none =>
    exact ⟨"", by simp [FormatSpan.record_values, FieldFormatter.addFields, hf]⟩
  | some s =>
    refine ⟨" " ++ s, ?_⟩
    simp [FormatSpan.record_values, FieldFormatter.addFields, hf, h, String.append_assoc]

/-- C4 witness: recording b=2 over the stored detail a=1 keeps a=1 as a
prefix of the merged string. -/
theorem C4_record_values_extends_witness :
    ("a=1" : String) ≠ ""
    ∧ ∃ t, FormatSpan.record_values (.fromFields kvFormatter) (some "a=1")
        [{ name := "b", value := "2" }] = some ("a=1" ++ t) :=
  ⟨by decide,
    C4_record_values_extends kvFormatter "a=1" [{ name := "b", value := "2" }] (by decide)⟩

/-! ## Claim C5 -/

/-- C5 counterexample: with debug assertions compiled in, the `on_id_change`
callback reaches `debug_assert!(false)`, a panic that propagates into the
instrumented application; so, as stated, no-panic-reachable is false for the
lifecycle callback `on_id_change` in debug builds. -/
theorem C5_panic_reachable_counterexample :
    (layer_on_id_change true { ext := none, calls := [] }).panicMsg ≠ none := by decide

/-- C5 (amended): for `on_new_span`, `on_record`, `on_enter` and `on_exit`
with the span id resolving, under every host Performance outcome and every
formatter outcome, the callback returns normally — host call failures are
discarded and never surfaced, each host call site is attempted at most once
(the call log only grows by the calls of that site), and `on_id_change` in
production builds (debug assertions disabled) also returns normally without
touching the performance state. -/
theorem C5_amended_no_error_propagates (fs : FormatSpan) (oracle : Nat → Bool) (name : String)
    (spanId : Nat) (attrs values : List Field) (st : PerfState) :
    (layer_on_new_span fs (some (name, spanId)) attrs st).panicMsg = none
    ∧ (layer_on_record fs oracle (some (name, spanId)) values st).panicMsg = none
    ∧ (layer_on_enter fs oracle (some (name, spanId)) st).panicMsg = none
    ∧ (layer_on_exit fs oracle (some (name, spanId)) st).panicMsg = none
    ∧ (layer_on_id_change false st).panicMsg = none
    ∧ (layer_on_id_change false st).st = st
    ∧ (layer_on_new_span fs (some (name, spanId)) attrs st).st.calls = st.calls
    ∧ (layer_on_record fs oracle (some (name, spanId)) values st).st.calls
        = st.calls ++ [markFor (template_name name spanId "span-record")
            (fs.find_details (fs.record_values st.ext values))]
    ∧ (layer_on_enter fs oracle (some (name, spanId)) st).st.calls
        = st.calls ++ [markFor (template_name name spanId "span-enter")
            (fs.find_details st.ext)]
    ∧ (∃ t, (layer_on_exit fs oracle (some (name, spanId)) st).st.calls = st.calls ++ t) := by
  refine ⟨rfl, rfl, rfl, rfl, rfl, rfl, rfl, ?_, ?_, ?_⟩
  · exact on_record_calls ..
  · exact on_enter_calls ..
  · exact step_calls_mono fs oracle name spanId st .exit

/-! ## Claim C6 -/

/-- Whether a host call is the plain (detail-less) variant. -/
def plainCall : PerfCall → Bool
  | .mark _ => true
  | .measure _ _ _ => true
  | .markDetailed _ _ => false
  | .measureDetailed _ _ _ _ => false

theorem extStep_noop (ext : Option String) (ev : SpanEvent) : extStep .noop ext ev = ext := by
  cases ev <;> rfl

theorem foldl_extStep_noop (es : List SpanEvent) (ext : Option String) :
    es.foldl (extStep .noop) ext = ext := by
  induction es with
  | nil => rfl
  | cons e es ih => rw [List.foldl_cons, extStep_noop, ih]

theorem step_noop_plain (oracle : Nat → Bool) (name : String) (spanId : Nat) (st : PerfState)
    (ev : SpanEvent) (h : st.calls.all plainCall = true) :
    (step .noop oracle name spanId st ev).calls.all plainCall = true := by
  cases ev with
  | newSpan attrs => simpa [step, on_new_span_calls] using h
  | record values =>
    rw [show (step .noop oracle name spanId st (.record values)).calls = _ from
      on_record_calls ..]
    simp [List.all_append, h, FormatSpan.find_details, markFor, plainCall]
  | enter =>
    rw [show (step .noop oracle name spanId st .enter).calls = _ from on_enter_calls ..]
    simp [List.all_append, h, FormatSpan.find_details, markFor, plainCall]
  | exit =>
    rw [show (step .noop oracle name spanId st .exit).calls = _ from on_exit_spec ..]
    cases ho : oracle st.calls.length <;>
      simp [List.all_append, h, FormatSpan.find_details, markFor, measureFor, plainCall, ho]

theorem runEvents_noop_plain (oracle : Nat → Bool) (name : String) (spanId : Nat)
    (es : List SpanEvent) (st : PerfState) (h : st.calls.all plainCall = true) :
    (runEvents .noop oracle name spanId es st).calls.all plainCall = true := by
  induction es generalizing st with
  | nil => exact h
  | cons ev es ih => exact ih _ (step_noop_plain oracle name spanId st ev h)

/-- C6: the NoOp formatter's `find_details` always returns none, its
`add_details` and `record_values` leave the extension slot exactly as it was
(nothing is ever stored), and consequently, for any event sequence and host
outcome, every mark and measure the layer attempts is the plain
(detail-less) variant. -/
theorem C6_noop_formatter (oracle : Nat → Bool) (name : String) (spanId : Nat)
    (events : List SpanEvent) (ext0 : Option String) :
    (∀ ext : Option String, FormatSpan.find_details .noop ext = none)
    ∧ (∀ (ext : Option String) (fields : List Field),
        FormatSpan.add_details .noop ext fields = ext
        ∧ FormatSpan.record_values .noop ext fields = ext)
    ∧ (runEvents .noop oracle name spanId events { ext := ext0, calls := [] }).ext = ext0
    ∧ ((runEvents .noop oracle name spanId events { ext := ext0, calls := [] }).calls.all
        plainCall) = true := by
  refine ⟨fun _ => rfl, fun _ _ => ⟨rfl, rfl⟩, ?_, ?_⟩
  · rw [runEvents_ext]
    exact foldl_extStep_noop ..
  · exact runEvents_noop_plain oracle name spanId events _ rfl

/-! ## Claim C7 -/

/-- Spec-side severity table: the method prescribed for each of the five
canonical levels. -/
def tableMethod : Level → ConsoleMethod
  | .trace => .debug
  | .debug => .debug
  | .info => .info
  | .warn => .warn
  | .error => .error

/-- C7: for each of the five canonical levels and both styles, the selected
dispatcher emits through exactly the method of the severity table (TRACE and
DEBUG via console.debug, INFO via console.info, WARN via console.warn, ERROR
via console.error); the otherwise-branch of the selection is the fallback
implementation, which emits through the generic console.log for any level,
with a neutral (empty style) label showing the literal level name in pretty
style. -/
theorem C7_level_method_table (style : LogStyle) (level : Level) (msg : String) :
    (select_dispatcher style level level msg).method = tableMethod level
    ∧ (LogLevelFallback.log_simple level msg).method = .log
    ∧ LogLevelFallback.log_pretty level msg
        = { method := .log, args := ["%c%s%c %s", "", level.display, "", msg] } := by
  refine ⟨?_, rfl, rfl⟩
  cases level <;> cases style <;> rfl

/-! ## Claim C8 -/

theorem writeAll_spec (w : ConsoleWriter) (chunks : List (List Nat)) :
    writeAll w chunks
      = { buffer := w.buffer ++ chunks.flatten, level := w.level, log := w.log } := by
  induction chunks generalizing w with
  | nil => simp [writeAll]
  | cons c cs ih =>
    rw [show writeAll w (c :: cs) = writeAll ((w.write c).1) cs from rfl, ih]
    simp [ConsoleWriter.write, List.append_assoc]

/-- C8: a writer accumulates every written byte in order; the intermediate
`flush` changes nothing and emits nothing; dropping the writer performs
exactly one console call, carrying the UTF-8 lossy decoding of the
concatenation of all written bytes, through the dispatcher and level fixed at
construction; for a writer built by `make_writer_for`, that dispatcher is the
one selected for the record's level; in particular partial writes of the
bytes of ab then cd flush once with abcd. -/
theorem C8_accumulate_single_flush (w : ConsoleWriter) (chunks : List (List Nat))
    (m : MakeWebConsoleWriter) (metaLevel : Level) :
    ConsoleWriter.drop (writeAll w chunks)
      = [w.log w.level (from_utf8_lossy (w.buffer ++ chunks.flatten))]
    ∧ (writeAll w chunks).flush = (writeAll w chunks, [])
    ∧ ConsoleWriter.drop (writeAll (m.make_writer_for metaLevel) chunks)
      = [(if m.use_pretty_label then select_dispatcher .pretty metaLevel
          else select_dispatcher .simple metaLevel) metaLevel
          (from_utf8_lossy chunks.flatten)]
    ∧ ConsoleWriter.drop
        (writeAll { buffer := [], level := .info, log := LogLevelInfo.log_simple }
          [[0x61, 0x62], [0x63, 0x64]])
      = [{ method := .info, args := ["abcd"] }] := by
  refine ⟨?_, rfl, ?_, ?_⟩
  · rw [writeAll_spec]
    rfl
  · rw [writeAll_spec]
    simp [MakeWebConsoleWriter.make_writer_for, ConsoleWriter.drop]
  · decide

/-! ## Claim C9 -/

/-- C9: every `on_id_change` callback emits exactly one host-visible warning
and leaves the performance state untouched (zero marks and zero measures),
and it returns normally if and only if debug assertions are disabled — in
debug builds the development-time assertion fires, in production the callback
is otherwise ignored. -/
theorem C9_id_change_warns_once (d : Bool) (st : PerfState) :
    (layer_on_id_change d st).warnings
        = ["A span changed id, this is currently not supported"]
    ∧ (layer_on_id_change d st).st = st
    ∧ ((layer_on_id_change d st).panicMsg = none ↔ d = false) := by
  refine ⟨rfl, rfl, ?_⟩
  cases d <;> simp [layer_on_id_change]

/-! ## Claim C10 -/

/-- C10: a writer from metadata-less `make_writer` stores level TRACE but
flushes through the generic fallback path — plain console.log in simple
style, console.log with an uncolored literal TRACE label in pretty style —
while a writer from `make_writer_for` with TRACE metadata flushes through
console.debug; the canonical TRACE-to-debug mapping does not apply to the
metadata-less constructor. -/
theorem C10_make_writer_uses_fallback (pretty : Bool) (chunks : List (List Nat)) :
    (MakeWebConsoleWriter.mk pretty).make_writer.level = .trace
    ∧ ConsoleWriter.drop (writeAll (MakeWebConsoleWriter.mk pretty).make_writer chunks)
      = [{ method := .log,
           args := if pretty
             then ["%c%s%c %s", "", "TRACE", "", from_utf8_lossy chunks.flatten]
             else [from_utf8_lossy chunks.flatten] }]
    ∧ (ConsoleWriter.drop
        (writeAll ((MakeWebConsoleWriter.mk pretty).make_writer_for .trace) chunks)).map
        ConsoleCall.method = [.debug] := by
  refine ⟨rfl, ?_, ?_⟩
  · rw [writeAll_spec]
    cases pretty <;>
      simp [MakeWebConsoleWriter.make_writer, ConsoleWriter.drop, LogStyle.get_dispatch,
        LogLevelFallback, Level.display]
  · rw [writeAll_spec]
    cases pretty <;>
      simp [MakeWebConsoleWriter.make_writer_for, ConsoleWriter.drop, select_dispatcher,
        LogStyle.get_dispatch, LogLevelTrace, mkLogImpl]

end TracingWeb
